import Mathlib

/-!
Verification of the galick load-testing engine against its specification.

The definitions below are a shallow embedding of the Go sources:
  * `pkg/metrics/metrics.go`   — Result, Stats, Add, Snapshot, quantile queries
  * `pkg/engine/engine.go`     — the pacer / worker concurrency model, as a
    labelled transition system
  * `pkg/report/tui.go`        — GenerateTextReport
  * `cmd/galick/main.go`       — flag validation in the root command
  * `pkg/protocols/loadhttp`   — the StaticHTTP attacker's error mapping
  * `pkg/protocols/script`     — the Scripted attacker's dict coercion

Machine integers (uint64 counters, uint16 status codes, int64 durations) are
modelled as Nat / Int; the uint16 conversion in the attackers keeps its
explicit wrap.  Go floats in the report are modelled as exact rationals.
-/

namespace Galick

/-! ### Result and the latency histogram (pkg/metrics/metrics.go)

`Result` mirrors `metrics.Result`: Latency is a `time.Duration` (int64
nanoseconds), BytesIn/BytesOut are uint64, Code is uint16, Error is a string
(empty means absent).  The Timestamp field plays no role in any claim and is
omitted from the record. -/

structure Result where
  latencyNs : Int
  bytesIn : Nat
  bytesOut : Nat
  code : Nat
  error : String
  deriving Repr, DecidableEq

/-- Model of the hdrhistogram-go histogram used by `Stats` (an external
dependency of the repository).  The model keeps the constructor bounds and the
multiset of recorded values (as the list of accepted `RecordValue` calls, in
order); `Merge` adds every recorded value of the argument into the receiver.
This is exactly the granularity the claims need: the quantile / mean / max
queries are total functions of the recorded values. -/
structure Histogram where
  lowest : Int
  highest : Int
  sigfigs : Nat
  values : List Int
  deriving Repr, DecidableEq

/-- Microseconds in one hour: `int64(time.Hour / time.Microsecond)`, the upper
bound passed to `hdrhistogram.New` in `NewStats` and `Snapshot`. -/
def microsPerHour : Int := 3600000000

/-- Mirrors `hdrhistogram.New(1, int64(time.Hour/time.Microsecond), 3)`. -/
def Histogram.new : Histogram :=
  { lowest := 1, highest := microsPerHour, sigfigs := 3, values := [] }

/-- Mirrors `RecordValue`: values outside the trackable range are rejected
(the Go call returns an error, which `Stats.Add` discards); in-range values
are recorded. -/
def Histogram.RecordValue (h : Histogram) (v : Int) : Histogram :=
  if 0 ≤ v ∧ v ≤ h.highest then { h with values := h.values ++ [v] } else h

/-- Mirrors `h.Merge(from)`: every value recorded in `src` is added into `h`;
`src` is read-only. -/
def Histogram.Merge (h src : Histogram) : Histogram :=
  { h with values := h.values ++ src.values }

/-- Number of recorded values at or below `v`. -/
def Histogram.countLe (h : Histogram) (v : Int) : Nat :=
  (h.values.filter (fun x => decide (x ≤ v))).length

/-- Model of `ValueAtQuantile(q)`: the smallest recorded value `v` such that at
least `max 1 ⌈q·n/100⌉` of the recorded values are ≤ `v` (0 when empty). -/
def Histogram.ValueAtQuantile (h : Histogram) (q : ℚ) : Int :=
  let n := h.values.length
  let needed : Nat := max 1 (⌈q * (n : ℚ) / 100⌉).toNat
  match h.values.filter (fun v => decide (needed ≤ h.countLe v)) with
  | [] => 0
  | x :: xs => xs.foldl min x

/-- Model of `Mean()`: arithmetic mean of the recorded values, 0 when empty. -/
def Histogram.Mean (h : Histogram) : ℚ :=
  if h.values.length = 0 then 0
  else ((h.values.foldl (· + ·) 0 : Int) : ℚ) / (h.values.length : ℚ)

/-- Model of `Max()`: largest recorded value, 0 when empty. -/
def Histogram.MaxValue (h : Histogram) : Int :=
  h.values.foldl max 0

/-! ### Stats (pkg/metrics/metrics.go)

The mutex only serialises Add/Snapshot; in the sequential embedding each
operation is a function on the state.  Counters are uint64 in Go; a run adds
one per committed result, so they are modelled as Nat. -/

structure Stats where
  TotalRequests : Nat
  SuccessCount : Nat
  ErrorCount : Nat
  BytesIn : Nat
  BytesOut : Nat
  Histogram : Histogram
  deriving Repr, DecidableEq

/-- Mirrors `NewStats()`. -/
def NewStats : Stats :=
  { TotalRequests := 0, SuccessCount := 0, ErrorCount := 0,
    BytesIn := 0, BytesOut := 0, Histogram := Histogram.new }

/-- Mirrors `time.Duration.Microseconds()` (integer division of the nanosecond
count by 1000; only strictly positive latencies reach the histogram, where
all integer division conventions agree). -/
def Result.latencyMicroseconds (r : Result) : Int := r.latencyNs / 1000

/-- Mirrors `Stats.Add`: increment TotalRequests; increment SuccessCount when
`r.Error == "" && r.Code >= 200 && r.Code < 400`, else ErrorCount; accumulate
the byte counters; record the latency when it is strictly positive. -/
def Stats.Add (s : Stats) (r : Result) : Stats :=
  let s1 := { s with TotalRequests := s.TotalRequests + 1 }
  let s2 :=
    if r.error = "" ∧ 200 ≤ r.code ∧ r.code < 400 then
      { s1 with SuccessCount := s1.SuccessCount + 1 }
    else
      { s1 with ErrorCount := s1.ErrorCount + 1 }
  let s3 := { s2 with BytesIn := s2.BytesIn + r.bytesIn,
                      BytesOut := s2.BytesOut + r.bytesOut }
  if 0 < r.latencyNs then
    { s3 with Histogram := s3.Histogram.RecordValue r.latencyMicroseconds }
  else s3

/-- Mirrors `Stats.Snapshot` in state-passing style: the first component is
the returned copy (fresh histogram with the same bounds, merged from the
receiver's), the second is the receiver after the call.  The method body
assigns to no field of the receiver and `h.Merge(s.Histogram)` reads
`s.Histogram` without mutating it, so the after-state is the input state. -/
def Stats.Snapshot (s : Stats) : Stats × Stats :=
  let h := Histogram.new.Merge s.Histogram
  ({ TotalRequests := s.TotalRequests, SuccessCount := s.SuccessCount,
     ErrorCount := s.ErrorCount, BytesIn := s.BytesIn, BytesOut := s.BytesOut,
     Histogram := h }, s)

/-- Mirrors `Stats.P99` (result in nanoseconds: µs value times 1000). -/
def Stats.P99 (s : Stats) : Int := s.Histogram.ValueAtQuantile 99 * 1000

/-- Mirrors `Stats.P95`. -/
def Stats.P95 (s : Stats) : Int := s.Histogram.ValueAtQuantile 95 * 1000

/-- Mirrors `Stats.Max`. -/
def Stats.MaxLatency (s : Stats) : Int := s.Histogram.MaxValue * 1000

/-! ### The pacing engine (pkg/engine/engine.go)

`Engine.Run` spawns W worker goroutines and one pacer goroutine that
communicate over the unbuffered channel `ticks := make(chan struct\x7b\x7d)`
and the timeout context `runCtx`.  The embedding is a labelled transition
system: every constructor of `EngStep` is one atomic step of one goroutine
(or the firing of the duration timer / external cancel), with its guard read
off the corresponding `select` in the source.

Channel semantics follow Go: the pacer's inner
`select (case ticks <- v) default` succeeds iff the buffer has room or a
receiver is blocked on the channel, and takes `default` (dropping the tick)
otherwise; a receive on a closed channel with an empty buffer succeeds
immediately with the zero value.  The capacity is a parameter of the
configuration so that boundedness is a provable property; `Engine.Run`
instantiates it with 0, as the source's `make(chan struct\x7b\x7d)` does. -/

structure EngineCfg where
  qps : Int
  workers : Nat
  cap : Nat
  deriving Repr, DecidableEq

/-- Configuration as built inside `Engine.Run`: the tick channel is created
with `make(chan struct\x7b\x7d)`, i.e. capacity 0. -/
def mkEngineCfg (qps : Int) (workers : Nat) : EngineCfg :=
  { qps := qps, workers := workers, cap := 0 }

/-- Phase of one worker goroutine: blocked at its `select` (`selecting`),
inside `attacker.Attack` / `stats.Add` (`attacking`), or returned. -/
inductive WorkerPhase where
  | selecting
  | attacking
  | exited
  deriving Repr, DecidableEq

structure EngineState where
  cancelled : Bool
  pacerExited : Bool
  ticksClosed : Bool
  tickQueue : Nat
  workers : List WorkerPhase
  attacksStarted : Nat
  resultsCommitted : Nat
  ticksDropped : Nat
  deriving Repr, DecidableEq

/-- State at the top of `Engine.Run`: workers and pacer started, channel open
and empty, `runCtx` not yet done. -/
def engineInit (cfg : EngineCfg) : EngineState :=
  { cancelled := false, pacerExited := false, ticksClosed := false,
    tickQueue := 0, workers := List.replicate cfg.workers WorkerPhase.selecting,
    attacksStarted := 0, resultsCommitted := 0, ticksDropped := 0 }

inductive ELabel where
  | cancelFire
  | pacerEarlyExit
  | pacerCancelExit
  | tickDeliver (i : Nat)
  | tickEnqueue
  | tickDrop
  | workerTakeQueued (i : Nat)
  | workerTakeClosed (i : Nat)
  | workerCancelExit (i : Nat)
  | workerFinish (i : Nat)
  deriving Repr, DecidableEq

/-- Labels of the pacer's tick-emission `select (case ticks <- v) default`. -/
def SendLabel : ELabel → Prop :=
  fun l => (∃ i, l = ELabel.tickDeliver i) ∨ l = ELabel.tickEnqueue ∨ l = ELabel.tickDrop

/-- One atomic step of `Engine.Run`, guards read off the source:

* `cancelFire` — `runCtx` becomes done (duration expiry or external cancel).
* `pacerEarlyExit` — the pacer's `if e.qps <= 0 return`; the deferred
  `close(ticks)` runs.
* `pacerCancelExit` — the pacer's `case <-runCtx.Done()`; deferred close runs.
* `tickDeliver` — the ticker fired and `ticks <- v` completes by rendezvous
  with worker `i` blocked at its `select`.
* `tickEnqueue` — `ticks <- v` completes by buffering (needs room; impossible
  at capacity 0).
* `tickDrop` — the `default` branch: the send could neither buffer nor find a
  blocked receiver.
* `workerTakeQueued` — worker `i` receives a buffered tick and calls Attack.
* `workerTakeClosed` — worker `i`'s `case <-ticks` on the closed, drained
  channel: the receive yields the zero value immediately and the worker calls
  Attack (there is no guard on `cancelled`: the `select` has no priority).
* `workerCancelExit` — worker `i`'s `case <-runCtx.Done()`: return.
* `workerFinish` — `attacker.Attack` returns and `stats.Add(res)` commits the
  Result; the worker loops back to its `select`. -/
inductive EngStep (cfg : EngineCfg) : ELabel → EngineState → EngineState → Prop where
  | cancelFire (s : EngineState) (h : s.cancelled = false) :
      EngStep cfg ELabel.cancelFire s { s with cancelled := true }
  | pacerEarlyExit (s : EngineState) (hp : s.pacerExited = false) (hq : cfg.qps ≤ 0) :
      EngStep cfg ELabel.pacerEarlyExit s { s with pacerExited := true, ticksClosed := true }
  | pacerCancelExit (s : EngineState) (hp : s.pacerExited = false) (hq : 0 < cfg.qps)
      (hc : s.cancelled = true) :
      EngStep cfg ELabel.pacerCancelExit s { s with pacerExited := true, ticksClosed := true }
  | tickDeliver (s : EngineState) (i : Nat) (hp : s.pacerExited = false) (hq : 0 < cfg.qps)
      (hqueue : s.tickQueue = 0) (hw : s.workers.get? i = some WorkerPhase.selecting) :
      EngStep cfg (ELabel.tickDeliver i) s
        { s with workers := s.workers.set i WorkerPhase.attacking,
                 attacksStarted := s.attacksStarted + 1 }
  | tickEnqueue (s : EngineState) (hp : s.pacerExited = false) (hq : 0 < cfg.qps)
      (hroom : s.tickQueue < cfg.cap) :
      EngStep cfg ELabel.tickEnqueue s { s with tickQueue := s.tickQueue + 1 }
  | tickDrop (s : EngineState) (hp : s.pacerExited = false) (hq : 0 < cfg.qps)
      (hfull : cfg.cap ≤ s.tickQueue)
      (hnorecv : ∀ i, s.workers.get? i ≠ some WorkerPhase.selecting) :
      EngStep cfg ELabel.tickDrop s { s with ticksDropped := s.ticksDropped + 1 }
  | workerTakeQueued (s : EngineState) (i : Nat)
      (hw : s.workers.get? i = some WorkerPhase.selecting) (hq : 0 < s.tickQueue) :
      EngStep cfg (ELabel.workerTakeQueued i) s
        { s with tickQueue := s.tickQueue - 1,
                 workers := s.workers.set i WorkerPhase.attacking,
                 attacksStarted := s.attacksStarted + 1 }
  | workerTakeClosed (s : EngineState) (i : Nat)
      (hw : s.workers.get? i = some WorkerPhase.selecting)
      (hclosed : s.ticksClosed = true) (hq : s.tickQueue = 0) :
      EngStep cfg (ELabel.workerTakeClosed i) s
        { s with workers := s.workers.set i WorkerPhase.attacking,
                 attacksStarted := s.attacksStarted + 1 }
  | workerCancelExit (s : EngineState) (i : Nat)
      (hw : s.workers.get? i = some WorkerPhase.selecting) (hc : s.cancelled = true) :
      EngStep cfg (ELabel.workerCancelExit i) s
        { s with workers := s.workers.set i WorkerPhase.exited }
  | workerFinish (s : EngineState) (i : Nat)
      (hw : s.workers.get? i = some WorkerPhase.attacking) :
      EngStep cfg (ELabel.workerFinish i) s
        { s with workers := s.workers.set i WorkerPhase.selecting,
                 resultsCommitted := s.resultsCommitted + 1 }

/-- States reachable in an execution of `Engine.Run`. -/
inductive EngReach (cfg : EngineCfg) : EngineState → Prop where
  | init : EngReach cfg (engineInit cfg)
  | step (s s' : EngineState) (l : ELabel) (hr : EngReach cfg s)
      (hs : EngStep cfg l s s') : EngReach cfg s'

/-! ### The final report (pkg/report/tui.go, GenerateTextReport)

The Go function builds a styled string; the exact layout is not normative, so
a line is modelled as its label together with its numeric payload (durations
in nanoseconds, percentages and rates as exact rationals standing for the Go
float64 computation).  The line order matches the `WriteString` order of the
source. -/

inductive ReportLine where
  | completedBanner
  | durationLine (elapsedNs : Int)
  | requestsLine (total : Nat)
  | meanQPSLine (qps : ℚ)
  | successPctLine (pct : ℚ)
  | p50Line (latencyNs : Int)
  | p95Line (latencyNs : Int)
  | p99Line (latencyNs : Int)
  | maxLine (latencyNs : Int)
  deriving Repr, DecidableEq

/-- Mirrors `GenerateTextReport(eng, start)`: reads the engine's live Stats,
always emits the banner, duration, request count, mean QPS and a success
percentage (the literal `0.00%` when TotalRequests is 0), and emits the
P50/P95/P99/Max lines only under `stats.TotalRequests > 0`. -/
def GenerateTextReport (stats : Stats) (elapsedNs : Int) : List ReportLine :=
  let elapsedSec : ℚ := (elapsedNs : ℚ) / 1000000000
  let avgQPS : ℚ := (stats.TotalRequests : ℚ) / elapsedSec
  [ReportLine.completedBanner, ReportLine.durationLine elapsedNs,
   ReportLine.requestsLine stats.TotalRequests, ReportLine.meanQPSLine avgQPS]
  ++ (if 0 < stats.TotalRequests then
        [ReportLine.successPctLine
          ((stats.SuccessCount : ℚ) / (stats.TotalRequests : ℚ) * 100)]
      else [ReportLine.successPctLine 0])
  ++ (if 0 < stats.TotalRequests then
        [ReportLine.p50Line (stats.Histogram.ValueAtQuantile 50 * 1000),
         ReportLine.p95Line stats.P95,
         ReportLine.p99Line stats.P99,
         ReportLine.maxLine stats.MaxLatency]
      else [])

/-! ### Root-command flag validation (cmd/galick/main.go)

The `Run` closure of `rootCmd` decides how the process proceeds from the
`--url` and `--script` flags: a non-empty `--script` selects the scripted
attacker (the `--url` value is not consulted); otherwise an empty `--url` is
rejected with a message on stderr and exit code 1; otherwise the static
attacker is built from `--method` and `--url`.  Script-load failures and TUI
failures are separate, later exits and are outside this decision. -/

inductive CLIOutcome where
  | exitError (msg : String)
  | runScript (path : String)
  | runStatic (method url : String)
  deriving Repr, DecidableEq

def CLIOutcome.isExitError : CLIOutcome → Bool
  | CLIOutcome.exitError _ => true
  | _ => false

/-- Mirrors the attacker-selection branch of the root command. -/
def rootCmdValidate (targetURL scriptPath method : String) : CLIOutcome :=
  if scriptPath ≠ "" then CLIOutcome.runScript scriptPath
  else if targetURL = "" then
    CLIOutcome.exitError "Error: --url is required unless --script is provided"
  else CLIOutcome.runStatic method targetURL

/-! ### The StaticHTTP attacker (pkg/protocols/loadhttp)

`Attack` performs one HTTP request.  The interaction with the Go HTTP client
is abstracted into an outcome: `http.NewRequestWithContext` may fail;
`client.Do` may fail (transport, DNS, TLS, timeout — all surfaced as a
non-nil error with no response); otherwise a response arrives with a status
code and the body is streamed to `io.Discard`, which may itself fail midway
after some bytes.  `elapsedNs` stands for the `time.Since(start)` reading. -/

inductive HTTPOutcome where
  | newRequestError (msg : String)
  | doError (msg : String)
  | response (status : Nat) (bodyBytes : Nat) (bodyReadError : Option String)
  deriving Repr, DecidableEq

/-- Mirrors `loadhttp.Attacker.Attack`.  On a request-construction or
transport error the Result carries the error string and the zero values of
Code and BytesIn.  On a response, the body is copied to the bit bucket and
the copy's error return is discarded (`written, _ := io.Copy(...)`), so the
Result carries an empty Error, `uint16(resp.StatusCode)` and the bytes read
before any failure. -/
def loadhttpAttack (elapsedNs : Int) (outcome : HTTPOutcome) : Result :=
  match outcome with
  | HTTPOutcome.newRequestError msg =>
      { latencyNs := elapsedNs, bytesIn := 0, bytesOut := 0, code := 0, error := msg }
  | HTTPOutcome.doError msg =>
      { latencyNs := elapsedNs, bytesIn := 0, bytesOut := 0, code := 0, error := msg }
  | HTTPOutcome.response status bodyBytes _ =>
      { latencyNs := elapsedNs, bytesIn := bodyBytes, bytesOut := 0,
        code := status % 65536, error := "" }

/-! ### The Scripted attacker's dict coercion (pkg/protocols/script)

When the script's `request()` returns a `*starlark.Dict`, `Attack` folds over
`dict.Items()` with mutable locals `method := "GET"`, `url := ""`, `body :=
nil` and a `switch k.String()` over the case labels `"method"`, `"url"`,
`"body"`.  The key `k` is a `starlark.String`, and go.starlark.net's
`String()` method returns the *quoted* source representation of the string
(`syntax.Quote`: the text wrapped in double-quote characters, with escapes
for special characters; the raw text would be `string(k)`).  The embedding
models that quoting for keys without escape-needing characters, which is
exact for every key a comparison against the unquoted case labels could ever
be near.  An empty final url aborts with an error Result; otherwise
`http.NewRequestWithContext(ctx, method, url, body)` is issued.  No code
path sets a header on the request. -/

inductive SValue where
  | str (s : String)
  | int (n : Int)
  | dict (items : List (SValue × SValue))
  | noneV

/-- The HTTP request the scripted attacker issues: `headers` is the list of
script-supplied headers applied to it. -/
structure ScriptRequest where
  method : String
  url : String
  body : Option String
  headers : List (String × String)
  deriving Repr, DecidableEq

inductive AttackBuild where
  | errorResult (msg : String)
  | request (req : ScriptRequest)
  deriving Repr, DecidableEq

/-- Model of `starlark.String.String()` from go.starlark.net: the quoted
representation of the string (exact for strings without escape-needing
characters — in particular it always begins with a double-quote character). -/
def starlarkStringRepr (s : String) : String := "\"" ++ s ++ "\""

/-- The `for _, item := range dict.Items()` loop of `script.Attacker.Attack`,
with the three mutable locals as accumulators.  The switch scrutinee is
`k.String()` — the quoted representation — compared against the unquoted
case labels `"method"`, `"url"`, `"body"`. -/
def coerceItems : List (SValue × SValue) → String → String → Option String →
    String × String × Option String
  | [], m, u, b => (m, u, b)
  | (k, v) :: rest, m, u, b =>
    match k with
    | SValue.str ks =>
      if starlarkStringRepr ks = "method" then
        match v with
        | SValue.str vs => coerceItems rest vs u b
        | _ => coerceItems rest m u b
      else if starlarkStringRepr ks = "url" then
        match v with
        | SValue.str vs => coerceItems rest m vs b
        | _ => coerceItems rest m u b
      else if starlarkStringRepr ks = "body" then
        match v with
        | SValue.str vs => coerceItems rest m u (some vs)
        | _ => coerceItems rest m u b
      else coerceItems rest m u b
    | _ => coerceItems rest m u b

/-- Mirrors the request-building part of `script.Attacker.Attack` on a dict
return value: run the coercion loop, reject an empty url, otherwise build the
request (no header is ever set on it). -/
def buildScriptRequest (items : List (SValue × SValue)) : AttackBuild :=
  match coerceItems items "GET" "" none with
  | (m, u, b) =>
    if u = "" then AttackBuild.errorResult "script returned empty url"
    else AttackBuild.request { method := m, url := u, body := b, headers := [] }

/-! ## Theorems -/

/-- Merging a histogram into a fresh one with the same bounds preserves the
recorded values: the clone taken by `Snapshot` carries exactly the source
distribution. -/
theorem Histogram.new_Merge_values (h : Histogram) :
    (Histogram.new.Merge h).values = h.values := by
  simp [Histogram.Merge, Histogram.new]

/-- The snapshot copy agrees with the source on the recorded distribution. -/
theorem Stats.Snapshot_fst_values (s : Stats) :
    (s.Snapshot).1.Histogram.values = s.Histogram.values := by
  simp [Stats.Snapshot, Histogram.new_Merge_values]

/-- One `Add` moves the counters by the success/error split of the result. -/
theorem Stats.Add_counters (s : Stats) (r : Result) :
    (s.Add r).TotalRequests = s.TotalRequests + 1 ∧
    (s.Add r).SuccessCount =
      s.SuccessCount + (if r.error = "" ∧ 200 ≤ r.code ∧ r.code < 400 then 1 else 0) ∧
    (s.Add r).ErrorCount =
      s.ErrorCount + (if r.error = "" ∧ 200 ≤ r.code ∧ r.code < 400 then 0 else 1) := by
  by_cases hc : r.error = "" ∧ 200 ≤ r.code ∧ r.code < 400 <;>
    by_cases hl : 0 < r.latencyNs <;>
    simp [Stats.Add, hc, hl]

/-- C1: every `Stats.Add(r)` increments TotalRequests by exactly 1 and
increments exactly one of SuccessCount (precisely when `r.Error` is empty and
`200 ≤ r.Code < 400`) or ErrorCount, and after any finite sequence of Add
calls starting from `NewStats()`, `SuccessCount + ErrorCount =
TotalRequests`. -/
theorem stats_add_counts_c1 (s : Stats) (r : Result) (rs : List Result) :
    (s.Add r).TotalRequests = s.TotalRequests + 1 ∧
    (s.Add r).SuccessCount =
      s.SuccessCount + (if r.error = "" ∧ 200 ≤ r.code ∧ r.code < 400 then 1 else 0) ∧
    (s.Add r).ErrorCount =
      s.ErrorCount + (if r.error = "" ∧ 200 ≤ r.code ∧ r.code < 400 then 0 else 1) ∧
    (rs.foldl Stats.Add NewStats).SuccessCount + (rs.foldl Stats.Add NewStats).ErrorCount
      = (rs.foldl Stats.Add NewStats).TotalRequests := by
  obtain ⟨h1, h2, h3⟩ := Stats.Add_counters s r
  refine ⟨h1, h2, h3, ?_⟩
  have key : ∀ (l : List Result) (t : Stats),
      t.SuccessCount + t.ErrorCount = t.TotalRequests →
      (l.foldl Stats.Add t).SuccessCount + (l.foldl Stats.Add t).ErrorCount
        = (l.foldl Stats.Add t).TotalRequests := by
    intro l
    induction l with
    | nil => intro t ht; exact ht
    | cons x xs ih =>
      intro t ht
      simp only [List.foldl_cons]
      apply ih
      obtain ⟨g1, g2, g3⟩ := Stats.Add_counters t x
      by_cases hc : x.error = "" ∧ 200 ≤ x.code ∧ x.code < 400 <;>
        simp [hc] at g2 g3 <;> omega
  exact key rs NewStats rfl

/-- C8: snapshotting twice with no intervening `Add` yields snapshots that
agree on every counter, on the recorded distribution, and hence on every
quantile, on the mean and on the max. -/
theorem snapshot_idempotent_c8 (s : Stats) (q : ℚ) :
    ((s.Snapshot).1.TotalRequests = ((s.Snapshot).2.Snapshot).1.TotalRequests ∧
     (s.Snapshot).1.SuccessCount = ((s.Snapshot).2.Snapshot).1.SuccessCount ∧
     (s.Snapshot).1.ErrorCount = ((s.Snapshot).2.Snapshot).1.ErrorCount ∧
     (s.Snapshot).1.BytesIn = ((s.Snapshot).2.Snapshot).1.BytesIn ∧
     (s.Snapshot).1.BytesOut = ((s.Snapshot).2.Snapshot).1.BytesOut) ∧
    (s.Snapshot).1.Histogram.values = ((s.Snapshot).2.Snapshot).1.Histogram.values ∧
    (s.Snapshot).1.Histogram.ValueAtQuantile q
      = ((s.Snapshot).2.Snapshot).1.Histogram.ValueAtQuantile q ∧
    (s.Snapshot).1.Histogram.Mean = ((s.Snapshot).2.Snapshot).1.Histogram.Mean ∧
    (s.Snapshot).1.Histogram.MaxValue = ((s.Snapshot).2.Snapshot).1.Histogram.MaxValue :=
  ⟨⟨rfl, rfl, rfl, rfl, rfl⟩, rfl, rfl, rfl, rfl⟩

/-- C10: `Snapshot` leaves the receiver unchanged: every counter field and
the recorded contents of the source histogram are identical to their values
before the call. -/
theorem snapshot_frame_c10 (s : Stats) :
    (s.Snapshot).2.TotalRequests = s.TotalRequests ∧
    (s.Snapshot).2.SuccessCount = s.SuccessCount ∧
    (s.Snapshot).2.ErrorCount = s.ErrorCount ∧
    (s.Snapshot).2.BytesIn = s.BytesIn ∧
    (s.Snapshot).2.BytesOut = s.BytesOut ∧
    (s.Snapshot).2.Histogram.values = s.Histogram.values ∧
    (s.Snapshot).2 = s :=
  ⟨rfl, rfl, rfl, rfl, rfl, rfl, rfl⟩

/-- C9: the final report always contains a success-percentage line — 0 when
TotalRequests is 0 and SuccessCount/TotalRequests·100 otherwise — and
contains the P50/P95/P99/Max latency lines exactly when TotalRequests > 0. -/
theorem report_lines_c9 (stats : Stats) (elapsedNs : Int) :
    (ReportLine.successPctLine
        (if stats.TotalRequests = 0 then 0
         else (stats.SuccessCount : ℚ) / (stats.TotalRequests : ℚ) * 100)
      ∈ GenerateTextReport stats elapsedNs) ∧
    ((∃ v, ReportLine.p50Line v ∈ GenerateTextReport stats elapsedNs)
      ↔ 0 < stats.TotalRequests) ∧
    ((∃ v, ReportLine.p95Line v ∈ GenerateTextReport stats elapsedNs)
      ↔ 0 < stats.TotalRequests) ∧
    ((∃ v, ReportLine.p99Line v ∈ GenerateTextReport stats elapsedNs)
      ↔ 0 < stats.TotalRequests) ∧
    ((∃ v, ReportLine.maxLine v ∈ GenerateTextReport stats elapsedNs)
      ↔ 0 < stats.TotalRequests) := by
  by_cases h : stats.TotalRequests = 0
  · simp [GenerateTextReport, h]
  · have hpos : 0 < stats.TotalRequests := Nat.pos_of_ne_zero h
    simp [GenerateTextReport, h, hpos]

/-- C7 counterexample: with both `--url` and `--script` supplied the root
command does not exit with an error — it silently prefers the script. -/
theorem cli_both_flags_counterexample_c7 :
    rootCmdValidate "http://example.com" "attack.star" "GET"
      = CLIOutcome.runScript "attack.star" ∧
    (rootCmdValidate "http://example.com" "attack.star" "GET").isExitError = false := by
  constructor <;> decide

/-- C7 (amended): the binary exits non-zero with a message exactly when both
`--url` and `--script` are empty; a non-empty `--script` always selects the
scripted attacker (the `--url` value is ignored), and the static attacker
runs exactly when `--script` is empty and `--url` is not. -/
theorem cli_validation_amended_c7 (url scriptP m : String) :
    ((rootCmdValidate url scriptP m).isExitError = true ↔ url = "" ∧ scriptP = "") ∧
    (rootCmdValidate url scriptP m = CLIOutcome.runScript scriptP ↔ scriptP ≠ "") ∧
    (rootCmdValidate url scriptP m = CLIOutcome.runStatic m url
      ↔ scriptP = "" ∧ url ≠ "") := by
  by_cases hs : scriptP = "" <;> by_cases hu : url = "" <;>
    simp [rootCmdValidate, CLIOutcome.isExitError, hs, hu]

/-- C6 counterexample: a body-read failure after a 200 response with bytes
already transferred yields a Result whose Error field is empty (the `io.Copy`
error is discarded), not the non-empty Error the claim requires. -/
theorem loadhttp_body_read_error_counterexample_c6 :
    (loadhttpAttack 5000000
        (HTTPOutcome.response 200 7 (some "unexpected EOF"))).error = "" ∧
    (loadhttpAttack 5000000
        (HTTPOutcome.response 200 7 (some "unexpected EOF"))).code = 200 ∧
    (loadhttpAttack 5000000
        (HTTPOutcome.response 200 7 (some "unexpected EOF"))).bytesIn = 7 := by
  refine ⟨rfl, by decide, rfl⟩

/-- C6 (amended): every invocation of the StaticHTTP `Attack` returns exactly
one Result; request-construction failures and transport-layer failures
(timeouts, DNS, TLS — anything surfaced by `client.Do`) yield a Result with
the error string set and Code = 0, while a received response — even one whose
body read fails midway — yields Code = the received status, BytesIn = the
bytes read before any failure, and an empty Error. -/
theorem loadhttp_attack_amended_c6 (elapsedNs : Int) (msg : String) (hmsg : msg ≠ "")
    (status bodyBytes : Nat) (readErr : Option String) :
    ((loadhttpAttack elapsedNs (HTTPOutcome.newRequestError msg)).error = msg ∧
     (loadhttpAttack elapsedNs (HTTPOutcome.newRequestError msg)).error ≠ "" ∧
     (loadhttpAttack elapsedNs (HTTPOutcome.newRequestError msg)).code = 0) ∧
    ((loadhttpAttack elapsedNs (HTTPOutcome.doError msg)).error = msg ∧
     (loadhttpAttack elapsedNs (HTTPOutcome.doError msg)).error ≠ "" ∧
     (loadhttpAttack elapsedNs (HTTPOutcome.doError msg)).code = 0) ∧
    ((loadhttpAttack elapsedNs (HTTPOutcome.response status bodyBytes readErr)).error = "" ∧
     (loadhttpAttack elapsedNs (HTTPOutcome.response status bodyBytes readErr)).code
        = status % 65536 ∧
     (loadhttpAttack elapsedNs (HTTPOutcome.response status bodyBytes readErr)).bytesIn
        = bodyBytes) :=
  ⟨⟨rfl, hmsg, rfl⟩, ⟨rfl, hmsg, rfl⟩, rfl, rfl, rfl⟩

/-- Witness for the amended C6 theorem at a concrete transport failure. -/
theorem loadhttp_attack_amended_c6_witness :
    (loadhttpAttack 5000000 (HTTPOutcome.doError "dial tcp: connection refused")).error ≠ "" ∧
    (loadhttpAttack 5000000 (HTTPOutcome.doError "dial tcp: connection refused")).code = 0 := by
  have h := loadhttp_attack_amended_c6 5000000 "dial tcp: connection refused"
    (by decide) 200 7 none
  exact ⟨h.2.1.2.1, h.2.1.2.2⟩

/-- The quoted representation of a key begins with a double-quote character,
so it never equals any of the unquoted case labels of the switch. -/
theorem starlarkStringRepr_ne_label (ks t : String)
    (ht : t.data.head? ≠ some '"') : starlarkStringRepr ks ≠ t := by
  intro h
  have h' := congrArg String.data h
  simp [starlarkStringRepr, String.data_append] at h'
  apply ht
  rw [← h']
  rfl

/-- No iteration of the coercion loop matches any key: the three locals come
out exactly as they went in. -/
theorem coerceItems_id (items : List (SValue × SValue)) (m u : String)
    (b : Option String) : coerceItems items m u b = (m, u, b) := by
  induction items generalizing m u b with
  | nil => rfl
  | cons kv rest ih =>
    obtain ⟨k, v⟩ := kv
    cases k with
    | str ks =>
      rw [coerceItems,
        if_neg (starlarkStringRepr_ne_label ks "method" (by decide)),
        if_neg (starlarkStringRepr_ne_label ks "url" (by decide)),
        if_neg (starlarkStringRepr_ne_label ks "body" (by decide))]
      exact ih m u b
    | int n => exact ih m u b
    | dict d => exact ih m u b
    | noneV => exact ih m u b

/-- C5 counterexample: a script dict that supplies a url (and headers) is not
coerced into a request at all — the switch compares `k.String()`, the quoted
key representation, against unquoted labels, so no key ever matches, the url
local stays empty and the invocation yields the error Result "script
returned empty url" instead of issuing the claimed request. -/
theorem script_dict_never_coerced_counterexample_c5 :
    buildScriptRequest
        [(SValue.str "url", SValue.str "http://example.com"),
         (SValue.str "headers",
            SValue.dict [(SValue.str "X-Api-Key", SValue.str "secret")])]
      = AttackBuild.errorResult "script returned empty url" ∧
    buildScriptRequest
        [(SValue.str "url", SValue.str "http://example.com"),
         (SValue.str "headers",
            SValue.dict [(SValue.str "X-Api-Key", SValue.str "secret")])]
      ≠ AttackBuild.request
          { method := "GET", url := "http://example.com", body := none,
            headers := [("X-Api-Key", "secret")] } := by
  constructor <;> decide

/-- C5 (amended): the coercion loop switches on the quoted representation of
each key, which never equals the unquoted case labels, so every key —
method, url, body and headers alike — is ignored: the locals keep their
initial values, and every dict returned by `request()` yields the error
Result "script returned empty url"; no HTTP request is ever issued from a
dict return. -/
theorem script_coercion_amended_c5 (items : List (SValue × SValue)) (m u : String)
    (b : Option String) :
    coerceItems items m u b = (m, u, b) ∧
    buildScriptRequest items = AttackBuild.errorResult "script returned empty url" := by
  refine ⟨coerceItems_id items m u b, ?_⟩
  rw [buildScriptRequest, coerceItems_id]
  rfl

/-- At the source's channel capacity 0 no step ever enqueues a tick: every
reachable state of `Engine.Run` has an empty tick buffer. -/
theorem reach_tickQueue_empty (q : Int) (w : Nat) (s : EngineState)
    (hr : EngReach (mkEngineCfg q w) s) : s.tickQueue = 0 := by
  induction hr with
  | init => rfl
  | step s s' l hr hs ih =>
    cases hs <;> simp_all [mkEngineCfg]

/-- C3: in every reachable state of `Engine.Run` the tick channel holds no
queued tick, and whenever the pacer is running with a tick ready its send
resolves immediately — by rendezvous with a waiting worker or by the default
branch — and when no worker is ready to receive, dropping the tick is both
possible and the only possible send resolution (the pacer never blocks and
never buffers). -/
theorem pacer_nonblocking_c3 (q : Int) (w : Nat) (s : EngineState)
    (hr : EngReach (mkEngineCfg q w) s) :
    s.tickQueue = 0 ∧
    (s.pacerExited = false → 0 < q →
      (∃ l s', EngStep (mkEngineCfg q w) l s s' ∧ SendLabel l) ∧
      ((∀ i, s.workers.get? i ≠ some WorkerPhase.selecting) →
        EngStep (mkEngineCfg q w) ELabel.tickDrop s
          { s with ticksDropped := s.ticksDropped + 1 } ∧
        (∀ l s', EngStep (mkEngineCfg q w) l s s' → SendLabel l →
          l = ELabel.tickDrop))) := by
  have hq0 := reach_tickQueue_empty q w s hr
  refine ⟨hq0, ?_⟩
  intro hp hq
  constructor
  · by_cases hsel : ∃ i, s.workers.get? i = some WorkerPhase.selecting
    · obtain ⟨i, hi⟩ := hsel
      exact ⟨ELabel.tickDeliver i, _, EngStep.tickDeliver s i hp hq hq0 hi,
        Or.inl ⟨i, rfl⟩⟩
    · push_neg at hsel
      exact ⟨ELabel.tickDrop, _, EngStep.tickDrop s hp hq (Nat.zero_le _) hsel,
        Or.inr (Or.inr rfl)⟩
  · intro hno
    refine ⟨EngStep.tickDrop s hp hq (Nat.zero_le _) hno, ?_⟩
    intro l s' hstep hsend
    cases hstep with
    | tickDeliver s i hp' hq' hqueue hw => exact absurd hw (hno i)
    | tickEnqueue s hp' hq' hroom => exact absurd hroom (by simp [mkEngineCfg])
    | tickDrop s hp' hq' hfull hnorecv => rfl
    | cancelFire s h =>
        rcases hsend with ⟨i, h'⟩ | h' | h' <;> cases h'
    | pacerEarlyExit s hp' hq' =>
        rcases hsend with ⟨i, h'⟩ | h' | h' <;> cases h'
    | pacerCancelExit s hp' hq' hc =>
        rcases hsend with ⟨i, h'⟩ | h' | h' <;> cases h'
    | workerTakeQueued s i hw hq' =>
        rcases hsend with ⟨j, h'⟩ | h' | h' <;> cases h'
    | workerTakeClosed s i hw hclosed hq' =>
        rcases hsend with ⟨j, h'⟩ | h' | h' <;> cases h'
    | workerCancelExit s i hw hc =>
        rcases hsend with ⟨j, h'⟩ | h' | h' <;> cases h'
    | workerFinish s i hw =>
        rcases hsend with ⟨j, h'⟩ | h' | h' <;> cases h'

/-- Witness for C3 at the initial state of a 1-qps, 0-worker run. -/
theorem pacer_nonblocking_c3_witness :
    (engineInit (mkEngineCfg 1 0)).tickQueue = 0 ∧
    (∃ l s', EngStep (mkEngineCfg 1 0) l (engineInit (mkEngineCfg 1 0)) s' ∧
      SendLabel l) := by
  have h := pacer_nonblocking_c3 1 0 (engineInit (mkEngineCfg 1 0)) EngReach.init
  exact ⟨h.1, (h.2 rfl (by decide)).1⟩

/-- C2 refutation: with qps = 0, one worker and the duration not yet expired,
the pacer's early return runs the deferred `close(ticks)`, after which the
worker's `case <-ticks` succeeds immediately on the closed channel, so the
worker invokes the Attacker and commits results in a busy loop: here a state
with two Attacker invocations and two committed results is reached while
cancellation has not fired. -/
theorem engine_qps_zero_spins_c2 :
    ∃ s : EngineState, EngReach (mkEngineCfg 0 1) s ∧
      s.cancelled = false ∧ s.attacksStarted = 2 ∧ s.resultsCommitted = 2 := by
  have h0 : EngReach (mkEngineCfg 0 1) (engineInit (mkEngineCfg 0 1)) := EngReach.init
  have h1 := EngReach.step _ _ _ h0
    (EngStep.pacerEarlyExit (engineInit (mkEngineCfg 0 1)) rfl (by decide))
  have h2 := EngReach.step _ _ _ h1 (EngStep.workerTakeClosed _ 0 rfl rfl rfl)
  have h3 := EngReach.step _ _ _ h2 (EngStep.workerFinish _ 0 rfl)
  have h4 := EngReach.step _ _ _ h3 (EngStep.workerTakeClosed _ 0 rfl rfl rfl)
  have h5 := EngReach.step _ _ _ h4 (EngStep.workerFinish _ 0 rfl)
  exact ⟨_, h5, rfl, rfl, rfl⟩

/-- C4 refutation: after the duration timer fires and the pacer exits
(closing the tick channel), a worker that could observe cancellation can
still take the always-ready closed-channel case of its `select` and start a
new Attacker invocation: from a reachable cancelled state with no attack
started, the `workerTakeClosed` step is enabled and starts one. -/
theorem worker_attacks_after_cancel_c4 :
    ∃ s s' : EngineState, EngReach (mkEngineCfg 1 1) s ∧ s.cancelled = true ∧
      s.attacksStarted = 0 ∧
      EngStep (mkEngineCfg 1 1) (ELabel.workerTakeClosed 0) s s' ∧
      s'.attacksStarted = 1 ∧ s'.workers.get? 0 = some WorkerPhase.attacking := by
  have h0 : EngReach (mkEngineCfg 1 1) (engineInit (mkEngineCfg 1 1)) := EngReach.init
  have h1 := EngReach.step _ _ _ h0
    (EngStep.cancelFire (engineInit (mkEngineCfg 1 1)) rfl)
  have h2 := EngReach.step _ _ _ h1 (EngStep.pacerCancelExit _ rfl (by decide) rfl)
  exact ⟨_, _, h2, rfl, rfl, EngStep.workerTakeClosed _ 0 rfl rfl rfl, rfl, rfl⟩

end Galick
